import Mathlib

/-!
Verification development for the 7-Zip Explorer shell-extension command
engine (`7Zip.ShellExtension.cpp`).

The C++ source decides, for a selection of filesystem paths, which
archive actions are visible, what default names to derive, and which
external-tool invocations ("dispatches") to build.  We embed those
decision procedures here.  Filesystem queries (`GetFileAttributesW`
directory checks) are abstracted as an environment `isDir : String → Bool`;
everything else is computed from the path strings exactly as the source
does via `std::filesystem::path` operations, which we model for
drive-letter and relative Windows paths (both separator characters).
-/

namespace SevenZip

/-- Both `\` and `/` are directory separators for `std::filesystem` on
Windows (`7Zip.ShellExtension.cpp` builds paths with `\`). -/
def isSep (c : Char) : Bool := c == '\\' || c == '/'

/-- ASCII letter test, used to recognise a drive-letter root name. -/
def isDriveLetter (c : Char) : Bool :=
  ('A' ≤ c && c ≤ 'Z') || ('a' ≤ c && c ≤ 'z')

/-- Split a character list at every separator character, keeping empty
tokens for separator runs (they are filtered later, matching
`std::filesystem` path normalisation). -/
def splitAllSep : List Char → List String
  | [] => [""]
  | c :: rest =>
    let r := splitAllSep rest
    if isSep c then "" :: r
    else
      match r with
      | t :: ts => String.mk (c :: t.toList) :: ts
      | [] => [String.mk [c]]

/-- The decomposition of a path that `std::filesystem::path` exposes:
root name (drive letter), whether a root directory separator is present,
and the relative components.  A trailing separator contributes a final
empty component, so that `filename()` of a path ending in `\` is empty,
as in C++17. -/
structure PathView where
  rootName : String
  rootDir : Bool
  comps : List String
deriving DecidableEq, Repr

/-- Parse a path string into its `PathView`, following the MSVC
`std::filesystem::path` decomposition for drive-letter and relative
paths: an optional `X:` root name, an optional root directory, then
components with separator runs collapsed and a trailing separator
recorded as a final empty component. -/
def parsePath (p : String) : PathView :=
  let cs := p.toList
  let rn : String × List Char :=
    match cs with
    | c₁ :: c₂ :: rest =>
      if isDriveLetter c₁ && c₂ == ':' then (String.mk [c₁, c₂], rest)
      else ("", cs)
    | _ => ("", cs)
  let rootDir : Bool :=
    match rn.2 with
    | c :: _ => isSep c
    | [] => false
  let rel := rn.2.dropWhile isSep
  let comps : List String :=
    if rel.isEmpty then []
    else
      let raw := splitAllSep rel
      raw.filter (fun t => !t.isEmpty) ++
        (match raw.getLast? with
         | some t => if t.isEmpty then [""] else []
         | none => [])
  ⟨rn.1, rootDir, comps⟩

/-- `filename()` of a decomposed path: its last component, empty when
there is none. -/
def viewFilename (v : PathView) : String := v.comps.getLast?.getD ""

/-- `std::filesystem::path(p).filename()`. -/
def filenameOf (p : String) : String := viewFilename (parsePath p)

/-- `std::filesystem::path(p).parent_path()`: drop the last component.
Kept as a `PathView` because the source only ever compares parent paths
for equality (`operator!=` is lexical, element-wise). -/
def parentOf (p : String) : PathView :=
  let v := parsePath p
  ⟨v.rootName, v.rootDir, v.comps.dropLast⟩

/-- Split a filename into `(stem, extension)` by the C++17 rule: `.` and
`..` have no extension; otherwise the extension starts at the last dot
unless that dot is the first character. -/
def stemExtSplit (fn : String) : String × String :=
  if fn == "." || fn == ".." then (fn, "")
  else
    let cs := fn.toList
    match cs.reverse.findIdx? (fun c => c == '.') with
    | some r =>
      let i := cs.length - 1 - r
      if i = 0 then (fn, "")
      else (String.mk (cs.take i), String.mk (cs.drop i))
    | none => (fn, "")

/-- `std::filesystem::path(p).extension()` (extension of the filename,
dot included). -/
def extensionOf (p : String) : String := (stemExtSplit (filenameOf p)).2

/-- `std::filesystem::path(p).stem()` (filename without its extension). -/
def stemOf (p : String) : String := (stemExtSplit (filenameOf p)).1

/-- The fixed archive-extension allow-list of `IsArchiveExt` in the
source. -/
def archiveExts : List String :=
  [".7z", ".zip", ".rar", ".tar", ".gz", ".xz", ".bz2", ".cab", ".wim",
   ".lzma", ".zst", ".arj"]

/-- Lower-case a string character-wise (the effect of `_wcsicmp` on the
ASCII extensions involved). -/
def strLower (s : String) : String :=
  String.mk (s.toList.map Char.toLower)

/-- `IsArchiveExt`: case-insensitive membership of the extension in the
allow-list (the source compares with `_wcsicmp`; the list is lowercase,
so lowering the probe suffices). -/
def IsArchiveExt (ext : String) : Bool :=
  archiveExts.any (fun e => strLower ext == e)

/-- `BaseName`: the source returns `filename()` when the path denotes a
directory (`IsDirectoryPath`, a filesystem query abstracted as `isDir`)
and `stem()` otherwise.  This is also the spec's
`DefaultExtractFolderName`. -/
def BaseName (isDir : String → Bool) (p : String) : String :=
  if isDir p then filenameOf p else stemOf p

/-- `DefaultArchiveName`: `"Archive" + ext` for an empty selection, the
single entry's `BaseName + ext` for a singleton, and for a multi-entry
selection the first entry's parent's filename + ext when every entry has
that same parent and it is non-empty, else `"Archive" + ext`. -/
def DefaultArchiveName (isDir : String → Bool) (paths : List String)
    (ext : String) : String :=
  match paths with
  | [] => "Archive" ++ ext
  | [p] => BaseName isDir p ++ ext
  | p :: q :: rest =>
    let parent := parentOf p
    let allSameParent := (p :: q :: rest).all (fun r => parentOf r == parent)
    if allSameParent && !(viewFilename parent).isEmpty then
      viewFilename parent ++ ext
    else
      "Archive" ++ ext

/-- The `CommandID` enumeration of the source (the catalog's closed
action set; `NoneId` stands for the source's `None`). -/
inductive CommandID
  | NoneId | Open | Test | ExtractFiles | ExtractHere | ExtractTo
  | AddToArchive | AddTo7z | AddToZip
  | EmailArchive | Email7z | EmailZip
  | CRCMenu | CRC32 | CRC64 | SHA1 | SHA256
deriving DecidableEq, Repr

/-- The HRESULT values this code returns from `GetState`, `Invoke` and
`DllCanUnloadNow`. -/
inductive HResult
  | ok
  | sFalse
deriving DecidableEq, Repr

/-- The `EXPCMDSTATE` values the source assigns. -/
inductive CmdState
  | hidden
  | enabled
deriving DecidableEq, Repr

/-- The `allArchives` flag computed inside
`ExplorerCommandBase::GetState`: the loop ANDs `IsArchiveExt` of each
path's extension (it never consults whether the entry is a file or a
directory). -/
def allArchives (paths : List String) : Bool :=
  paths.all (fun p => IsArchiveExt (extensionOf p))

/-- `ExplorerCommandBase::GetState`: state starts Hidden; an empty
selection returns immediately; `Open` needs a singleton of archives,
the extract/test family needs `allArchives`, everything else is
Enabled.  The HRESULT is always `S_OK`. -/
def getState (id : CommandID) (paths : List String) : HResult × CmdState :=
  if paths.isEmpty then (.ok, .hidden)
  else
    let aa := allArchives paths
    match id with
    | .Open => (.ok, if paths.length == 1 && aa then .enabled else .hidden)
    | .Test | .ExtractFiles | .ExtractHere | .ExtractTo =>
      (.ok, if aa then .enabled else .hidden)
    | _ => (.ok, .enabled)

/-- The external tools the source resolves with `Find7zTool`. -/
inductive Tool
  | sevenZG
  | sevenZ
  | sevenFM
deriving DecidableEq, Repr

/-- One `ShellRun` call: the tool and its argument string (the source
always uses the default empty working directory on these paths). -/
structure Dispatch where
  tool : Tool
  args : String
deriving DecidableEq, Repr

/-- The `quoteJoin` lambda of `Invoke`: each path double-quoted and
followed by a space, concatenated in selection order. -/
def quoteJoin (v : List String) : String :=
  v.foldl (fun s p => s ++ "\"" ++ p ++ "\" ") ""

/-- `ExplorerCommandBase::Invoke`, as the ordered list of `ShellRun`
calls it performs.  An empty selection performs none; `ExtractHere`
branches on selection size; `ExtractTo` loops over every path; the
`Email*` cases are verbatim copies of the `Add*` cases; `NoneId` and
`CRCMenu` fall to the default and perform nothing. -/
def invoke (id : CommandID) (isDir : String → Bool)
    (paths : List String) : List Dispatch :=
  match paths with
  | [] => []
  | p :: rest =>
    let all := p :: rest
    match id with
    | .Open => [⟨.sevenFM, "\"" ++ p ++ "\""⟩]
    | .Test => [⟨.sevenZG, "t " ++ quoteJoin all⟩]
    | .ExtractFiles => [⟨.sevenZG, "x " ++ quoteJoin all⟩]
    | .ExtractHere =>
      if rest.isEmpty then [⟨.sevenZG, "x -y \"" ++ p ++ "\""⟩]
      else
        all.map (fun q =>
          ⟨.sevenZG, "x -y -o\"" ++ BaseName isDir q ++ "\\\" \"" ++ q ++ "\""⟩)
    | .ExtractTo =>
      all.map (fun q =>
        ⟨.sevenZG, "x -y -o\"" ++ BaseName isDir q ++ "\\\" \"" ++ q ++ "\""⟩)
    | .AddToArchive => [⟨.sevenZG, "a " ++ quoteJoin all⟩]
    | .AddTo7z =>
      [⟨.sevenZG, "a \"" ++ DefaultArchiveName isDir all ".7z" ++ "\" " ++ quoteJoin all⟩]
    | .AddToZip =>
      [⟨.sevenZG, "a -tzip \"" ++ DefaultArchiveName isDir all ".zip" ++ "\" " ++ quoteJoin all⟩]
    | .EmailArchive => [⟨.sevenZG, "a " ++ quoteJoin all⟩]
    | .Email7z =>
      [⟨.sevenZG, "a \"" ++ DefaultArchiveName isDir all ".7z" ++ "\" " ++ quoteJoin all⟩]
    | .EmailZip =>
      [⟨.sevenZG, "a -tzip \"" ++ DefaultArchiveName isDir all ".zip" ++ "\" " ++ quoteJoin all⟩]
    | .CRC32 => [⟨.sevenZ, "h -scrcCRC32 " ++ quoteJoin all⟩]
    | .CRC64 => [⟨.sevenZ, "h -scrcCRC64 " ++ quoteJoin all⟩]
    | .SHA1 => [⟨.sevenZ, "h -scrcSHA1 " ++ quoteJoin all⟩]
    | .SHA256 => [⟨.sevenZ, "h -scrcSHA256 " ++ quoteJoin all⟩]
    | _ => []

/-- `CRCMenuParent::EnumSubCommands`: it constructs a fresh child list
on every call and takes no selection input at all; the unused selection
parameter records that independence so selection-invariance can be
stated. -/
def hashChildren (_sel : List String) : List (CommandID × String) :=
  [(.CRC32, "CRC-32"), (.CRC64, "CRC-64"), (.SHA1, "SHA-1"),
   (.SHA256, "SHA-256")]

/-- `ExplorerCommandRoot::GetState`: unconditionally `ECS_ENABLED` with
`S_OK`, whatever the selection. -/
def rootGetState (_sel : List String) : HResult × CmdState :=
  (.ok, .enabled)

/-- Lifecycle events on the DLL's global counters: construction or
destruction of a counted command object (`ExplorerCommandBase` or
`ExplorerCommandRoot`, which bracket `g_ObjCount` in their
constructor/destructor) and `LockServer(TRUE/FALSE)` on `g_LockCount`. -/
inductive LifeEvent
  | construct
  | destroy
  | lock
  | unlock
deriving DecidableEq, Repr

/-- The two global LONG counters of the DLL. -/
structure DllState where
  objCount : Int
  lockCount : Int
deriving DecidableEq, Repr

/-- Both counters start at zero (`static LONG g_ObjCount = 0`,
`g_LockCount = 0`). -/
def initState : DllState := ⟨0, 0⟩

/-- The `InterlockedIncrement`/`InterlockedDecrement` transitions on the
two counters. -/
def stepEvent (s : DllState) (e : LifeEvent) : DllState :=
  match e with
  | .construct => { s with objCount := s.objCount + 1 }
  | .destroy => { s with objCount := s.objCount - 1 }
  | .lock => { s with lockCount := s.lockCount + 1 }
  | .unlock => { s with lockCount := s.lockCount - 1 }

/-- Run a sequence of lifecycle events from the initial state. -/
def runEvents (es : List LifeEvent) : DllState :=
  es.foldl stepEvent initState

/-- `DllCanUnloadNow`: `S_OK` exactly when both counters read zero at
the moment of the query, `S_FALSE` otherwise. -/
def dllCanUnloadNow (s : DllState) : HResult :=
  if s.objCount == 0 && s.lockCount == 0 then .ok else .sFalse

/-- The `allArchives` flag as the specification words it: selection
non-empty and every entry a regular file with a recognised archive
extension.  Stated from the spec only to compare against the code's
`allArchives`, which ignores the regular-file requirement. -/
def specAllArchives (isRegularFile : String → Bool)
    (sel : List String) : Bool :=
  !sel.isEmpty && sel.all (fun p => isRegularFile p && IsArchiveExt (extensionOf p))

/-- Helper: the effect of a lifecycle event trace on both counters,
generalised over the starting state. -/
theorem foldl_stepEvent_counts (es : List LifeEvent) :
    ∀ s : DllState,
      (es.foldl stepEvent s).objCount =
        s.objCount + es.count .construct - es.count .destroy ∧
      (es.foldl stepEvent s).lockCount =
        s.lockCount + es.count .lock - es.count .unlock := by
  induction es with
  | nil => intro s; simp
  | cons e rest ih =>
    intro s
    have h := ih (stepEvent s e)
    cases e <;>
      simp only [List.foldl_cons, List.count_cons, stepEvent] at h ⊢ <;>
      constructor <;> simp_all <;> omega

/-- C5: for every command id in the catalog's closed action set,
`GetState` on an empty selection yields Hidden with `S_OK` (no fault
surfaces to the host), regardless of the action's visibility policy. -/
theorem C5_empty_selection_always_hidden :
    ∀ id : CommandID, getState id [] = (HResult.ok, CmdState.hidden) :=
  fun _ => rfl

/-- C10: the root command's `GetState` reports Enabled with `S_OK` for
every selection, the empty one included, while every enumerated child
action is Hidden on the empty selection — the empty-selection rule
applies only to the children, not to the root container. -/
theorem C10_root_always_enabled :
    (∀ sel : List String, rootGetState sel = (HResult.ok, CmdState.enabled)) ∧
    (∀ id : CommandID, getState id [] = (HResult.ok, CmdState.hidden)) :=
  ⟨fun _ => rfl, fun _ => rfl⟩

/-- C9: for every selection, each Email action builds exactly the
dispatch of the corresponding Add action — same tool, same default
archive name, same argument list, no email-specific flag. -/
theorem C9_email_dispatch_equals_add :
    ∀ (isDir : String → Bool) (paths : List String),
      invoke .Email7z isDir paths = invoke .AddTo7z isDir paths ∧
      invoke .EmailZip isDir paths = invoke .AddToZip isDir paths ∧
      invoke .EmailArchive isDir paths = invoke .AddToArchive isDir paths := by
  intro isDir paths
  cases paths <;> exact ⟨rfl, rfl, rfl⟩

/-- C1: `ExtractHere` on a singleton selection builds a single dispatch
extracting in place (`x -y "p"`, no `-o` output-subfolder argument); on
a selection of two or more entries it builds one dispatch per entry,
each extracting into the subfolder named by `BaseName` (the spec's
`DefaultExtractFolderName`) of that entry. -/
theorem C1_extract_here_smart_dispatch :
    (∀ (isDir : String → Bool) (p : String),
      invoke .ExtractHere isDir [p] =
        [⟨.sevenZG, "x -y \"" ++ p ++ "\""⟩]) ∧
    (∀ (isDir : String → Bool) (p q : String) (rest : List String),
      invoke .ExtractHere isDir (p :: q :: rest) =
        (p :: q :: rest).map (fun r =>
          ⟨.sevenZG,
            "x -y -o\"" ++ BaseName isDir r ++ "\\\" \"" ++ r ++ "\""⟩)) :=
  ⟨fun _ _ => rfl, fun _ _ _ _ => rfl⟩

/-- C2: `ExtractTo` on every non-empty selection builds one dispatch per
entry, each extracting into the subfolder named by `BaseName` of that
entry — including the singleton selection, where `ExtractHere` would
extract in place instead. -/
theorem C2_extract_to_folder_dispatch :
    (∀ (isDir : String → Bool) (p : String) (rest : List String),
      invoke .ExtractTo isDir (p :: rest) =
        (p :: rest).map (fun r =>
          ⟨.sevenZG,
            "x -y -o\"" ++ BaseName isDir r ++ "\\\" \"" ++ r ++ "\""⟩)) ∧
    (∀ (isDir : String → Bool) (p : String),
      invoke .ExtractTo isDir [p] =
        [⟨.sevenZG,
          "x -y -o\"" ++ BaseName isDir p ++ "\\\" \"" ++ p ++ "\""⟩] ∧
      invoke .ExtractHere isDir [p] =
        [⟨.sevenZG, "x -y \"" ++ p ++ "\""⟩]) :=
  ⟨fun _ _ _ => rfl, fun _ _ => ⟨rfl, rfl⟩⟩

/-- C3: `DefaultArchiveName` returns `"Archive" ++ ext` on the empty
selection; the entry's base name (directory name for a directory,
filename without extension for a file) plus `ext` on a singleton; and
on a multi-entry selection the common parent's final component plus
`ext` when all parents are path-equal and that component is non-empty,
else `"Archive" ++ ext`. -/
theorem C3_default_archive_name :
    (∀ (isDir : String → Bool) (ext : String),
      DefaultArchiveName isDir [] ext = "Archive" ++ ext) ∧
    (∀ (isDir : String → Bool) (p ext : String),
      DefaultArchiveName isDir [p] ext =
        (if isDir p then filenameOf p else stemOf p) ++ ext) ∧
    (∀ (isDir : String → Bool) (p q : String) (rest : List String)
        (ext : String),
      DefaultArchiveName isDir (p :: q :: rest) ext =
        if (∀ r ∈ p :: q :: rest, parentOf r = parentOf p) ∧
            viewFilename (parentOf p) ≠ "" then
          viewFilename (parentOf p) ++ ext
        else
          "Archive" ++ ext) := by
  refine ⟨fun _ _ => rfl, fun _ _ _ => rfl, fun isDir p q rest ext => ?_⟩
  have key : (((p :: q :: rest).all fun r => parentOf r == parentOf p) &&
      !(viewFilename (parentOf p)).isEmpty) = true ↔
      ((∀ r ∈ p :: q :: rest, parentOf r = parentOf p) ∧
        viewFilename (parentOf p) ≠ "") := by
    simp [List.all_eq_true, Bool.eq_false_iff, String.isEmpty_iff]
  simp only [DefaultArchiveName]
  exact if_congr key rfl rfl

/-- C3 witness: the theorem at the spec's own example — two files under
`C:\dir` yield `dir.7z`. -/
theorem C3_default_archive_name_witness :
    DefaultArchiveName (fun _ => false)
      ["C:\\dir\\a.txt", "C:\\dir\\b.txt"] ".7z" = "dir.7z" := by
  rw [C3_default_archive_name.2.2 (fun _ => false) "C:\\dir\\a.txt"
    "C:\\dir\\b.txt" [] ".7z"]
  decide

/-- C4 counterexample: the code's `allArchives` flag is computed from
extensions alone, so it is `true` for `C:\d\foo.zip` even in a
filesystem where nothing is a regular file (the spec-side predicate is
`false` there), and it is vacuously `true` — not `false` — on the empty
selection. -/
theorem C4_all_archives_counterexample :
    allArchives ["C:\\d\\foo.zip"] = true ∧
    specAllArchives (fun _ => false) ["C:\\d\\foo.zip"] = false ∧
    allArchives [] = true := by
  refine ⟨by decide, rfl, rfl⟩

/-- C4 amended: the `allArchives` flag is true exactly when every
entry's extension is in the allow-list (case-insensitively), whether or
not the entry is a regular file; on the empty selection the flag is
vacuously true but never consulted, because `GetState` answers Hidden
first. -/
theorem C4_all_archives_amended :
    (∀ sel : List String,
      (allArchives sel = true ↔
        ∀ p ∈ sel, IsArchiveExt (extensionOf p) = true)) ∧
    (∀ id : CommandID, getState id [] = (HResult.ok, CmdState.hidden)) :=
  ⟨fun _ => List.all_eq_true, fun _ => rfl⟩

/-- C4 witness: the amended theorem applied to a concrete two-entry
selection (one extension upper-case, exercising the case-insensitive
compare) and to the `Test` action on the empty selection. -/
theorem C4_all_archives_amended_witness :
    allArchives ["C:\\d\\a.7z", "C:\\d\\b.ZIP"] = true ∧
    getState .Test [] = (HResult.ok, CmdState.hidden) := by
  refine ⟨(C4_all_archives_amended.1 _).mpr ?_, C4_all_archives_amended.2 .Test⟩
  decide

/-- C6: `GetState` for `Open` is Enabled exactly when the selection is
a singleton whose entry has a recognised archive extension; every
selection of two or more entries is Hidden, archives or not. -/
theorem C6_open_requires_single_archive :
    (∀ (p : String) (rest : List String),
      ((getState .Open (p :: rest)).2 = CmdState.enabled ↔
        rest = [] ∧ IsArchiveExt (extensionOf p) = true)) ∧
    (∀ (p q : String) (rest : List String),
      (getState .Open (p :: q :: rest)).2 = CmdState.hidden) := by
  constructor
  · intro p rest
    cases rest with
    | nil =>
      cases hIA : IsArchiveExt (extensionOf p) <;>
        simp [getState, allArchives, hIA]
    | cons q rs =>
      have hlen : ((p :: q :: rs).length == 1) = false := by
        simp [List.length_cons]
      simp [getState, hlen]
  · intro p q rest
    have hlen : ((p :: q :: rest).length == 1) = false := by
      simp [List.length_cons]
    simp [getState, hlen]

/-- C6 witness: the theorem at a concrete singleton archive selection
and at a concrete two-archive selection. -/
theorem C6_open_requires_single_archive_witness :
    (getState .Open ["C:\\d\\a.7z"]).2 = CmdState.enabled ∧
    (getState .Open ["C:\\d\\a.7z", "C:\\d\\b.7z"]).2 = CmdState.hidden := by
  refine ⟨(C6_open_requires_single_archive.1 "C:\\d\\a.7z" []).mpr
    ⟨rfl, by decide⟩,
    C6_open_requires_single_archive.2 "C:\\d\\a.7z" "C:\\d\\b.7z" []⟩

/-- C7: expanding the Hash composite is idempotent — the child list is
independent of the selection, equals the fixed ordered quadruple
CRC32, CRC64, SHA1, SHA256, and rebuilding it any number of times
yields that same list every time. -/
theorem C7_hash_children_idempotent :
    (∀ sel sel' : List String, hashChildren sel = hashChildren sel') ∧
    (∀ sel : List String,
      hashChildren sel =
        [(.CRC32, "CRC-32"), (.CRC64, "CRC-64"), (.SHA1, "SHA-1"),
         (.SHA256, "SHA-256")]) ∧
    (∀ (n : Nat) (sel : List String),
      (List.range n).map (fun _ => hashChildren sel) =
        List.replicate n
          [(.CRC32, "CRC-32"), (.CRC64, "CRC-64"), (.SHA1, "SHA-1"),
           (.SHA256, "SHA-256")]) := by
  refine ⟨fun _ _ => rfl, fun _ => rfl, fun n sel => ?_⟩
  simp [hashChildren, List.map_const']

/-- C8: `DllCanUnloadNow` answers "may unload" exactly when both global
counters are zero, and after any event trace the object counter reads
precisely (constructions − destructions), the lock counter
(locks − unlocks) — the live state, not a cached value. -/
theorem C8_lifecycle_counts :
    (∀ s : DllState,
      (dllCanUnloadNow s = HResult.ok ↔
        s.objCount = 0 ∧ s.lockCount = 0)) ∧
    (∀ es : List LifeEvent,
      (runEvents es).objCount =
        (es.count .construct : Int) - (es.count .destroy : Int) ∧
      (runEvents es).lockCount =
        (es.count .lock : Int) - (es.count .unlock : Int)) := by
  constructor
  · intro s
    simp only [dllCanUnloadNow]
    split_ifs with h <;> simp_all
  · intro es
    have h := foldl_stepEvent_counts es initState
    simpa [runEvents, initState] using h

/-- C8 witness: the theorem at the fresh state (unload allowed) and at
a concrete trace of two constructions, one destruction and a lock,
where the counters read 1 and 1. -/
theorem C8_lifecycle_counts_witness :
    dllCanUnloadNow initState = HResult.ok ∧
    (runEvents [.construct, .construct, .destroy, .lock]).objCount = 1 ∧
    (runEvents [.construct, .construct, .destroy, .lock]).lockCount = 1 := by
  refine ⟨(C8_lifecycle_counts.1 initState).mpr ⟨rfl, rfl⟩, ?_, ?_⟩
  · have h := (C8_lifecycle_counts.2 [.construct, .construct, .destroy, .lock]).1
    simpa using h
  · have h := (C8_lifecycle_counts.2 [.construct, .construct, .destroy, .lock]).2
    simpa using h

end SevenZip
